import Mathlib

/-!
Verification of the bounded-buffer production line (`production_line.py`).

The Python program runs `num_producers` producer threads and `num_consumers`
consumer threads against a shared list `buffer`, guarded by a mutex and two
counting semaphores (`empty_slots`, `filled_slots`), with a global timestep
counter behind its own lock and statistics behind a third lock.

We embed the program as an interleaving transition system: each thread is a
small state machine whose phases correspond to the suspension points of the
Python worker loops, and every atomic action of the program (a lock-protected
block, a semaphore operation, a loop-condition check) is one labelled step.
Blocks executed while holding `self.mutex` are single steps, since no other
thread can interleave with them on the shared data they touch; the
unconditional semaphore release that directly follows each critical section
(lines 152 and 187) is folded into the same step, which is harmless because it
only increments a counter no other field depends on.  The two history fields
`producedHistory` / `consumedHistory` are ghost variables recording the exact
sequences of appended and popped pieces; they mirror no program variable and
are never read by a step.
-/

/-- One produced piece.  The Python code stores the string
`f"P{producer_id}-T{timestep}"`; we keep the two numbers it is built from. -/
structure Piece where
  producerId : Nat
  timestep : Nat
  deriving DecidableEq, Repr

/-- The `ProductionStats` dataclass (lines 19-30). -/
structure ProductionStats where
  total_produced : Nat
  total_consumed : Nat
  producer_waits : Nat
  consumer_waits : Nat
  buffer_snapshots : List Nat
  deriving DecidableEq, Repr

/-- The four constructor parameters of `ProductionLine` (validation aside). -/
structure Config where
  bufferCapacity : Nat
  numProducers : Nat
  numConsumers : Nat
  totalTimesteps : Nat
  deriving DecidableEq, Repr

/-- Control position of one worker thread inside its loop.

`loopHead`: about to evaluate `should_continue()` in the `while` condition;
`checked`: condition was true, about to call (possibly block on) `acquire` of
its semaphore (line 125 / 166); `acquired`: returned from `acquire`, about to
re-check `should_continue()` (line 127 / 168); `poised`: re-check passed,
about to enter the `with self.mutex` block; `done`: the loop was left. -/
inductive WPhase where
  | loopHead
  | checked
  | acquired
  | poised
  | done
  deriving DecidableEq, Repr

/-- The shared state of one `ProductionLine` run, plus per-thread control
positions and the two ghost history sequences. -/
structure State where
  buffer : List Piece
  empty_slots : Nat
  filled_slots : Nat
  current_timestep : Nat
  running : Bool
  stats : ProductionStats
  producers : List WPhase
  consumers : List WPhase
  producedHistory : List Piece
  consumedHistory : List Piece
  deriving DecidableEq, Repr

/-- `self.snapshot_interval = max(1, total_timesteps // 100)` (line 99). -/
def snapshotInterval (cfg : Config) : Nat :=
  max 1 (cfg.totalTimesteps / 100)

/-- `should_continue` (lines 112-114): `self.running and
self.get_current_timestep() < self.total_timesteps`. -/
def shouldContinue (cfg : Config) (s : State) : Bool :=
  s.running && decide (s.current_timestep < cfg.totalTimesteps)

/-- The state right after `__init__` (lines 63-99): empty buffer,
`empty_slots = buffer_capacity`, `filled_slots = 0`, timestep 0, running,
zeroed statistics, and every worker thread at the head of its loop. -/
def initState (cfg : Config) : State :=
  { buffer := []
    empty_slots := cfg.bufferCapacity
    filled_slots := 0
    current_timestep := 0
    running := true
    stats := { total_produced := 0, total_consumed := 0, producer_waits := 0,
               consumer_waits := 0, buffer_snapshots := [] }
    producers := List.replicate cfg.numProducers WPhase.loopHead
    consumers := List.replicate cfg.numConsumers WPhase.loopHead
    producedHistory := []
    consumedHistory := [] }

/-- Labels of the atomic steps of the interleaving semantics.  Producer and
consumer labels carry the index of the acting thread. -/
inductive Label where
  | pCheck (pid : Nat)
  | pExit (pid : Nat)
  | pAcquire (pid : Nat)
  | pReleaseBack (pid : Nat)
  | pEnter (pid : Nat)
  | produced (pid : Nat)
  | rejectedFull (pid : Nat)
  | cCheck (cid : Nat)
  | cExit (cid : Nat)
  | cAcquire (cid : Nat)
  | cReleaseBack (cid : Nat)
  | cEnter (cid : Nat)
  | consumed (cid : Nat)
  | consumedEmpty (cid : Nat)
  | shutdown
  deriving DecidableEq, Repr

/-- One atomic step of the program, as a partial function: `none` when the
labelled step is not enabled in `s`.

* `pCheck`/`pExit`: the `while self.should_continue()` test (line 123).
* `pAcquire`: `self.empty_slots.acquire()` (line 125), enabled once a permit
  is available.
* `pReleaseBack`/`pEnter`: the re-check at lines 127-129.
* `produced`: the whole `with self.mutex` block on the accepted branch
  (lines 132-145) — increment the timestep (line 135), append the piece
  (line 137), update `total_produced` and possibly record a snapshot of the
  buffer length *after* the append (lines 140-145) — together with the
  unconditional `self.filled_slots.release()` at line 152.
* `rejectedFull`: the same block on the defensive full-buffer branch
  (lines 146-149), which mutates nothing but `producer_waits`; line 152
  still releases `filled_slots` on this branch.
* consumer labels: symmetric, for lines 164-187; `consumed` pops the head
  (`self.buffer.pop(0)`, line 176).
* `shutdown`: `wait_completion` after its poll loop (lines 224-234): once
  `current_timestep` has reached `total_timesteps` it sets `running = False`
  and force-releases `empty_slots` once per producer and `filled_slots` once
  per consumer. -/
def applyLabel (cfg : Config) (s : State) : Label → Option State
  | .pCheck pid =>
    if s.producers[pid]? = some WPhase.loopHead ∧ shouldContinue cfg s = true then
      some { s with producers := s.producers.set pid WPhase.checked }
    else none
  | .pExit pid =>
    if s.producers[pid]? = some WPhase.loopHead ∧ shouldContinue cfg s = false then
      some { s with producers := s.producers.set pid WPhase.done }
    else none
  | .pAcquire pid =>
    if s.producers[pid]? = some WPhase.checked ∧ 0 < s.empty_slots then
      some { s with empty_slots := s.empty_slots - 1
                    producers := s.producers.set pid WPhase.acquired }
    else none
  | .pReleaseBack pid =>
    if s.producers[pid]? = some WPhase.acquired ∧ shouldContinue cfg s = false then
      some { s with empty_slots := s.empty_slots + 1
                    producers := s.producers.set pid WPhase.done }
    else none
  | .pEnter pid =>
    if s.producers[pid]? = some WPhase.acquired ∧ shouldContinue cfg s = true then
      some { s with producers := s.producers.set pid WPhase.poised }
    else none
  | .produced pid =>
    if s.producers[pid]? = some WPhase.poised ∧ s.buffer.length < cfg.bufferCapacity then
      some { s with
        buffer := s.buffer ++ [⟨pid, s.current_timestep + 1⟩]
        current_timestep := s.current_timestep + 1
        filled_slots := s.filled_slots + 1
        stats := { s.stats with
          total_produced := s.stats.total_produced + 1
          buffer_snapshots :=
            if (s.current_timestep + 1) % snapshotInterval cfg = 0 then
              s.stats.buffer_snapshots ++ [s.buffer.length + 1]
            else s.stats.buffer_snapshots }
        producers := s.producers.set pid WPhase.loopHead
        producedHistory := s.producedHistory ++ [⟨pid, s.current_timestep + 1⟩] }
    else none
  | .rejectedFull pid =>
    if s.producers[pid]? = some WPhase.poised ∧ cfg.bufferCapacity ≤ s.buffer.length then
      some { s with
        filled_slots := s.filled_slots + 1
        stats := { s.stats with producer_waits := s.stats.producer_waits + 1 }
        producers := s.producers.set pid WPhase.loopHead }
    else none
  | .cCheck cid =>
    if s.consumers[cid]? = some WPhase.loopHead ∧ shouldContinue cfg s = true then
      some { s with consumers := s.consumers.set cid WPhase.checked }
    else none
  | .cExit cid =>
    if s.consumers[cid]? = some WPhase.loopHead ∧ shouldContinue cfg s = false then
      some { s with consumers := s.consumers.set cid WPhase.done }
    else none
  | .cAcquire cid =>
    if s.consumers[cid]? = some WPhase.checked ∧ 0 < s.filled_slots then
      some { s with filled_slots := s.filled_slots - 1
                    consumers := s.consumers.set cid WPhase.acquired }
    else none
  | .cReleaseBack cid =>
    if s.consumers[cid]? = some WPhase.acquired ∧ shouldContinue cfg s = false then
      some { s with filled_slots := s.filled_slots + 1
                    consumers := s.consumers.set cid WPhase.done }
    else none
  | .cEnter cid =>
    if s.consumers[cid]? = some WPhase.acquired ∧ shouldContinue cfg s = true then
      some { s with consumers := s.consumers.set cid WPhase.poised }
    else none
  | .consumed cid =>
    if s.consumers[cid]? = some WPhase.poised then
      match s.buffer with
      | p :: rest =>
        some { s with
          buffer := rest
          empty_slots := s.empty_slots + 1
          stats := { s.stats with total_consumed := s.stats.total_consumed + 1 }
          consumers := s.consumers.set cid WPhase.loopHead
          consumedHistory := s.consumedHistory ++ [p] }
      | [] => none
    else none
  | .consumedEmpty cid =>
    if s.consumers[cid]? = some WPhase.poised ∧ s.buffer = [] then
      some { s with
        empty_slots := s.empty_slots + 1
        stats := { s.stats with consumer_waits := s.stats.consumer_waits + 1 }
        consumers := s.consumers.set cid WPhase.loopHead }
    else none
  | .shutdown =>
    if s.running = true ∧ cfg.totalTimesteps ≤ s.current_timestep then
      some { s with
        running := false
        empty_slots := s.empty_slots + cfg.numProducers
        filled_slots := s.filled_slots + cfg.numConsumers }
    else none

/-- `Stepped cfg s l s'`: the program can move from `s` to `s'` by the atomic
step labelled `l`. -/
@[reducible] def Stepped (cfg : Config) (s : State) (l : Label) (s' : State) : Prop :=
  applyLabel cfg s l = some s'

/-- States reachable from the freshly constructed `ProductionLine` by any
interleaving of thread steps. -/
inductive Reachable (cfg : Config) : State → Prop where
  | init : Reachable cfg (initState cfg)
  | step {s l s'} : Reachable cfg s → Stepped cfg s l s' → Reachable cfg s'

/-- Run a list of labelled steps from the initial state. -/
def runLabels (cfg : Config) (ls : List Label) : Option State :=
  ls.foldlM (fun s l => applyLabel cfg s l) (initState cfg)

/-- The inductive invariant of the transition system.  `conservation`,
`capacity`, `snapshots_le`, `history`, `tags` and `produced_eq_ts` are the
properties the claims are about; `shutdown_ts` records that `running` can
only have been cleared once the timestep target was reached. -/
structure SysInv (cfg : Config) (s : State) : Prop where
  conservation : s.stats.total_produced = s.stats.total_consumed + s.buffer.length
  capacity : s.buffer.length ≤ cfg.bufferCapacity
  snapshots_le : ∀ v ∈ s.stats.buffer_snapshots, v ≤ cfg.bufferCapacity
  snapshots_len : s.stats.buffer_snapshots.length = s.current_timestep / snapshotInterval cfg
  history : s.producedHistory = s.consumedHistory ++ s.buffer
  tags : s.producedHistory.map Piece.timestep = List.range' 1 s.stats.total_produced
  produced_eq_ts : s.stats.total_produced = s.current_timestep
  shutdown_ts : s.running = false → cfg.totalTimesteps ≤ s.current_timestep

/-- Python line 57: `min_consumers = int(num_producers * 1.1)`.

Python evaluates `num_producers * 1.1` in IEEE-754 double precision and
truncates toward zero.  The double nearest to 1.1 exceeds 11/10 by about
8.9e-17, so for every `num_producers` below 10^15 the (rounded) product lies
strictly between consecutive integers exactly as the rational 11n/10 does,
and the truncation equals `11 * n / 10` in natural floor division, which is
how we embed it. -/
def min_consumers (num_producers : Nat) : Nat :=
  num_producers * 11 / 10

/-- The validation block of `ProductionLine.__init__` (lines 52-61) with
`validate=True`: the four minimum checks in source order, each raising
`ValueError` with its message; on success the four parameters are stored
(lines 64-67) and no error escapes. -/
def validateParams (buffer_capacity num_producers num_consumers total_timesteps : Nat) :
    Except String Config :=
  if buffer_capacity < 1000 then
    Except.error "Capacidade do buffer deve ser no minimo 1000"
  else if num_producers < 200 then
    Except.error "Numero de produtores deve ser no minimo 200"
  else if num_consumers < min_consumers num_producers then
    Except.error ("Numero de consumidores deve ser no minimo "
      ++ toString (min_consumers num_producers))
  else if total_timesteps < 1000000 then
    Except.error "Numero de timesteps deve ser no minimo 1.000.000"
  else
    Except.ok { bufferCapacity := buffer_capacity, numProducers := num_producers,
                numConsumers := num_consumers, totalTimesteps := total_timesteps }

/-- Modelled from the spec's words, for comparison with the code: the spec
requires `numConsumers ≥ ceil(1.1 × numProducers)`.  For a natural `n`,
`ceil(11n/10) = (11n + 9) / 10` in floor division — this is the exact
integer ceiling of the rational 1.1·n, with no floating point involved. -/
def specCeilConsumerMin (num_producers : Nat) : Nat :=
  (num_producers * 11 + 9) / 10

/-- The three exclusive-access locks of the program: `self.mutex` (line 73),
`self.timestep_lock` (line 84) and `self.stats_lock` (line 88). -/
inductive LockName where
  | bufferMutex
  | timestepLock
  | statsLock
  deriving DecidableEq, Repr

/-- Micro-events of one worker-loop critical region, at the granularity of
individual lock operations and shared-data accesses. -/
inductive BodyEvent where
  | acq (l : LockName)
  | rel (l : LockName)
  | timestepIncrement
  | bufferAppend
  | bufferPop
  | statsProducedUpdate
  | snapshotAppend
  | statsConsumedUpdate
  | statsWaitUpdate
  | semaphoreSignal
  deriving DecidableEq, Repr

/-- Lines 132-152 of `producer_task`, accepted branch (with a snapshot):
`with self.mutex` opens, `increment_timestep` takes and drops
`timestep_lock` (lines 108-110), the piece is appended (137), `with
self.stats_lock` wraps the statistics update and the snapshot append
(140-145), the mutex is dropped, then `filled_slots.release()` (152). -/
def producerAcceptedBody : List BodyEvent :=
  [ .acq .bufferMutex,
    .acq .timestepLock, .timestepIncrement, .rel .timestepLock,
    .bufferAppend,
    .acq .statsLock, .statsProducedUpdate, .snapshotAppend, .rel .statsLock,
    .rel .bufferMutex,
    .semaphoreSignal ]

/-- Lines 132, 146-152 of `producer_task`, defensive full-buffer branch. -/
def producerRejectedBody : List BodyEvent :=
  [ .acq .bufferMutex,
    .acq .statsLock, .statsWaitUpdate, .rel .statsLock,
    .rel .bufferMutex,
    .semaphoreSignal ]

/-- Lines 173-187 of `consumer_task`, non-empty-buffer branch. -/
def consumerHitBody : List BodyEvent :=
  [ .acq .bufferMutex,
    .bufferPop,
    .acq .statsLock, .statsConsumedUpdate, .rel .statsLock,
    .rel .bufferMutex,
    .semaphoreSignal ]

/-- Lines 173, 181-187 of `consumer_task`, defensive empty-buffer branch. -/
def consumerMissBody : List BodyEvent :=
  [ .acq .bufferMutex,
    .acq .statsLock, .statsWaitUpdate, .rel .statsLock,
    .rel .bufferMutex,
    .semaphoreSignal ]

/-- The set (as a list, innermost first) of locks held after executing a
prefix of a body. -/
def heldAfter (evs : List BodyEvent) : List LockName :=
  evs.foldl
    (fun held e =>
      match e with
      | .acq l => l :: held
      | .rel l => held.erase l
      | _ => held)
    []

/-- Locks held by the worker at the moment event `i` of `evs` executes. -/
def heldAt (evs : List BodyEvent) (i : Nat) : List LockName :=
  heldAfter (evs.take i)

/-- Is this event a statistics update (a mutation of a `self.stats` field)? -/
def isStatsUpdate : BodyEvent → Bool
  | .statsProducedUpdate => true
  | .snapshotAppend => true
  | .statsConsumedUpdate => true
  | .statsWaitUpdate => true
  | _ => false

/-- Decidable lock-discipline check for one body: at every point at most two
locks are held, any held `statsLock` or `timestepLock` is nested inside a
held `bufferMutex`, and those two inner locks are never held together. -/
def lockNestingOK (evs : List BodyEvent) : Bool :=
  (List.range (evs.length + 1)).all fun i =>
    let held := heldAfter (evs.take i)
    decide (held.length ≤ 2) &&
    (!(held.contains .statsLock) || held.contains .bufferMutex) &&
    (!(held.contains .timestepLock) || held.contains .bufferMutex) &&
    !(held.contains .statsLock && held.contains .timestepLock)

/-- Decidable check that every statistics update in a body runs while the
buffer mutex is held. -/
def statsUpdatesUnderMutex (evs : List BodyEvent) : Bool :=
  (List.range evs.length).all fun i =>
    match evs[i]? with
    | some e => !(isStatsUpdate e) || (heldAt evs i).contains .bufferMutex
    | none => true

/-- The reduced-scale "toy problem" configuration from `main` (lines 323-329),
used to instantiate theorems at concrete inputs. -/
def cfgToy : Config :=
  { bufferCapacity := 10, numProducers := 2, numConsumers := 3, totalTimesteps := 100 }

/-- Schedule bringing producer 0 to the door of its critical section. -/
def wTrace : List Label := [Label.pCheck 0, Label.pAcquire 0, Label.pEnter 0]

def wState : State := (runLabels cfgToy wTrace).getD (initState cfgToy)

def wState' : State := (applyLabel cfgToy wState (Label.produced 0)).getD wState

/-- Schedule producing one piece and bringing consumer 0 to the door of its
critical section. -/
def wCTrace : List Label :=
  [Label.pCheck 0, Label.pAcquire 0, Label.pEnter 0, Label.produced 0,
   Label.cCheck 0, Label.cAcquire 0, Label.cEnter 0]

def wCState : State := (runLabels cfgToy wCTrace).getD (initState cfgToy)

def wCState' : State := (applyLabel cfgToy wCState (Label.consumed 0)).getD wCState

/-- A configuration with a buffer of capacity 1 and a concrete (full-buffer)
state with producer 0 about to run its critical section, used to exercise the
defensive rejected-full branch of `producer_task`. -/
def cfgC2 : Config :=
  { bufferCapacity := 1, numProducers := 1, numConsumers := 1, totalTimesteps := 5 }

def c2state : State :=
  { buffer := [⟨0, 1⟩]
    empty_slots := 0
    filled_slots := 1
    current_timestep := 1
    running := true
    stats := { total_produced := 1, total_consumed := 0, producer_waits := 0,
               consumer_waits := 0, buffer_snapshots := [1] }
    producers := [WPhase.poised]
    consumers := [WPhase.loopHead]
    producedHistory := [⟨0, 1⟩]
    consumedHistory := [] }

def c2state' : State := (applyLabel cfgC2 c2state (Label.rejectedFull 0)).getD c2state

deriving instance DecidableEq for Except

/-- Two producers, capacity 2, a single total timestep: both producers pass
their re-checks while the counter is still 0, then each increments it inside
the mutex, overshooting `total_timesteps = 1`. -/
def cfgC5 : Config :=
  { bufferCapacity := 2, numProducers := 2, numConsumers := 0, totalTimesteps := 1 }

def c5trace : List Label :=
  [Label.pCheck 0, Label.pAcquire 0, Label.pEnter 0,
   Label.pCheck 1, Label.pAcquire 1, Label.pEnter 1,
   Label.produced 0, Label.produced 1,
   Label.pExit 0, Label.pExit 1, Label.shutdown]

def c5final : State := (runLabels cfgC5 c5trace).getD (initState cfgC5)

/-- C9 counterexample: four producers, `total_timesteps = 2`, hence
`snapshot_interval = max(1, 2 // 100) = 1`.  All four producers pass their
re-checks before any of them enters the mutex, so four accepted productions
are tagged with timesteps 1..4, each divisible by 1, recording four
snapshots — the claimed count `total_timesteps // snapshot_interval = 2`
is off by 2, outside the allowed ±1. -/
def cfgC9 : Config :=
  { bufferCapacity := 10, numProducers := 4, numConsumers := 1, totalTimesteps := 2 }

def c9trace : List Label :=
  [Label.pCheck 0, Label.pAcquire 0, Label.pEnter 0,
   Label.pCheck 1, Label.pAcquire 1, Label.pEnter 1,
   Label.pCheck 2, Label.pAcquire 2, Label.pEnter 2,
   Label.pCheck 3, Label.pAcquire 3, Label.pEnter 3,
   Label.produced 0, Label.produced 1, Label.produced 2, Label.produced 3,
   Label.pExit 0, Label.pExit 1, Label.pExit 2, Label.pExit 3,
   Label.cExit 0, Label.shutdown]

def c9final : State := (runLabels cfgC9 c9trace).getD (initState cfgC9)

theorem reachable_of_foldlM (cfg : Config) :
    ∀ (ls : List Label) (s0 s : State), Reachable cfg s0 →
      ls.foldlM (fun s l => applyLabel cfg s l) s0 = some s → Reachable cfg s := by
  intro ls
  induction ls with
  | nil =>
    intro s0 s h0 hrun
    simp only [List.foldlM] at hrun
    cases hrun
    exact h0
  | cons l ls ih =>
    intro s0 s h0 hrun
    simp only [List.foldlM] at hrun
    cases h1 : applyLabel cfg s0 l with
    | none => rw [h1] at hrun; cases hrun
    | some s1 =>
      rw [h1] at hrun
      exact ih s1 s (Reachable.step h0 h1) hrun

/-- Any state produced by running a concrete schedule is reachable. -/
theorem reachable_of_runLabels (cfg : Config) (ls : List Label) (s : State)
    (h : runLabels cfg ls = some s) : Reachable cfg s :=
  reachable_of_foldlM cfg ls (initState cfg) s Reachable.init h

theorem sysInv_init (cfg : Config) : SysInv cfg (initState cfg) := by
  constructor <;> simp [initState]

/-- The invariant only looks at the fields listed here, so a step that leaves
them all unchanged preserves it. -/
theorem sysInv_of_eq {cfg : Config} {s s' : State} (h : SysInv cfg s)
    (hb : s'.buffer = s.buffer) (ht : s'.current_timestep = s.current_timestep)
    (hr : s'.running = s.running)
    (hstp : s'.stats.total_produced = s.stats.total_produced)
    (hstc : s'.stats.total_consumed = s.stats.total_consumed)
    (hsts : s'.stats.buffer_snapshots = s.stats.buffer_snapshots)
    (hph : s'.producedHistory = s.producedHistory)
    (hch : s'.consumedHistory = s.consumedHistory) : SysInv cfg s' := by
  constructor
  · rw [hb, hstp, hstc]; exact h.conservation
  · rw [hb]; exact h.capacity
  · rw [hsts]; exact h.snapshots_le
  · rw [hsts, ht]; exact h.snapshots_len
  · rw [hph, hch, hb]; exact h.history
  · rw [hph, hstp]; exact h.tags
  · rw [hstp, ht]; exact h.produced_eq_ts
  · rw [hr, ht]; exact h.shutdown_ts

theorem sysInv_step {cfg : Config} {s : State} {l : Label} {s' : State}
    (h : SysInv cfg s) (hs : Stepped cfg s l s') : SysInv cfg s' := by
  cases l with
  | pCheck pid =>
    simp only [Stepped, applyLabel] at hs
    split at hs
    · cases hs; exact sysInv_of_eq h rfl rfl rfl rfl rfl rfl rfl rfl
    · cases hs
  | pExit pid =>
    simp only [Stepped, applyLabel] at hs
    split at hs
    · cases hs; exact sysInv_of_eq h rfl rfl rfl rfl rfl rfl rfl rfl
    · cases hs
  | pAcquire pid =>
    simp only [Stepped, applyLabel] at hs
    split at hs
    · cases hs; exact sysInv_of_eq h rfl rfl rfl rfl rfl rfl rfl rfl
    · cases hs
  | pReleaseBack pid =>
    simp only [Stepped, applyLabel] at hs
    split at hs
    · cases hs; exact sysInv_of_eq h rfl rfl rfl rfl rfl rfl rfl rfl
    · cases hs
  | pEnter pid =>
    simp only [Stepped, applyLabel] at hs
    split at hs
    · cases hs; exact sysInv_of_eq h rfl rfl rfl rfl rfl rfl rfl rfl
    · cases hs
  | produced pid =>
    simp only [Stepped, applyLabel] at hs
    split at hs
    case isFalse => cases hs
    case isTrue hcond =>
      cases hs
      obtain ⟨-, hroom⟩ := hcond
      have hpos : 0 < snapshotInterval cfg := le_max_left 1 _
      constructor
      · simp only
        rw [List.length_append, h.conservation]
        simp [Nat.add_assoc]
      · simpa using hroom
      · intro v hv
        simp only at hv
        split at hv
        · rcases List.mem_append.1 hv with hold | hnew
          · exact h.snapshots_le v hold
          · simp at hnew
            omega
        · exact h.snapshots_le v hv
      · simp only
        split
        case isTrue hdvd =>
          rw [List.length_append, h.snapshots_len]
          have hdvd2 : snapshotInterval cfg ∣ s.current_timestep + 1 :=
            Nat.dvd_iff_mod_eq_zero.2 hdvd
          rw [Nat.succ_div, if_pos hdvd2]
          simp
        case isFalse hdvd =>
          rw [h.snapshots_len]
          have hdvd2 : ¬ snapshotInterval cfg ∣ s.current_timestep + 1 := by
            intro hd
            exact hdvd (Nat.dvd_iff_mod_eq_zero.1 hd)
          rw [Nat.succ_div, if_neg hdvd2]
          simp
      · simp only
        rw [h.history, List.append_assoc]
      · simp only
        rw [List.map_append, h.tags, h.produced_eq_ts]
        simp [List.range'_concat]
        omega
      · simp only
        rw [h.produced_eq_ts]
      · simp only
        intro hr
        exact Nat.le_succ_of_le (h.shutdown_ts hr)
  | rejectedFull pid =>
    simp only [Stepped, applyLabel] at hs
    split at hs
    · cases hs; exact sysInv_of_eq h rfl rfl rfl rfl rfl rfl rfl rfl
    · cases hs
  | cCheck cid =>
    simp only [Stepped, applyLabel] at hs
    split at hs
    · cases hs; exact sysInv_of_eq h rfl rfl rfl rfl rfl rfl rfl rfl
    · cases hs
  | cExit cid =>
    simp only [Stepped, applyLabel] at hs
    split at hs
    · cases hs; exact sysInv_of_eq h rfl rfl rfl rfl rfl rfl rfl rfl
    · cases hs
  | cAcquire cid =>
    simp only [Stepped, applyLabel] at hs
    split at hs
    · cases hs; exact sysInv_of_eq h rfl rfl rfl rfl rfl rfl rfl rfl
    · cases hs
  | cReleaseBack cid =>
    simp only [Stepped, applyLabel] at hs
    split at hs
    · cases hs; exact sysInv_of_eq h rfl rfl rfl rfl rfl rfl rfl rfl
    · cases hs
  | cEnter cid =>
    simp only [Stepped, applyLabel] at hs
    split at hs
    · cases hs; exact sysInv_of_eq h rfl rfl rfl rfl rfl rfl rfl rfl
    · cases hs
  | consumed cid =>
    simp only [Stepped, applyLabel] at hs
    split at hs
    case isFalse => cases hs
    case isTrue =>
      cases hbuf : s.buffer with
      | nil => rw [hbuf] at hs; cases hs
      | cons p rest =>
        rw [hbuf] at hs
        cases hs
        constructor
        · simp only
          have hc := h.conservation
          rw [hbuf] at hc
          simp at hc
          omega
        · simp only
          have hcap := h.capacity
          rw [hbuf] at hcap
          simp at hcap
          omega
        · exact h.snapshots_le
        · exact h.snapshots_len
        · simp only
          have hh := h.history
          rw [hbuf] at hh
          rw [hh, List.append_assoc]
          simp
        · exact h.tags
        · exact h.produced_eq_ts
        · exact h.shutdown_ts
  | consumedEmpty cid =>
    simp only [Stepped, applyLabel] at hs
    split at hs
    · cases hs; exact sysInv_of_eq h rfl rfl rfl rfl rfl rfl rfl rfl
    · cases hs
  | shutdown =>
    simp only [Stepped, applyLabel] at hs
    split at hs
    case isFalse => cases hs
    case isTrue hcond =>
      cases hs
      exact { conservation := h.conservation, capacity := h.capacity,
              snapshots_le := h.snapshots_le, snapshots_len := h.snapshots_len,
              history := h.history, tags := h.tags,
              produced_eq_ts := h.produced_eq_ts,
              shutdown_ts := fun _ => hcond.2 }

/-- The invariant holds in every reachable state. -/
theorem sysInv_reachable {cfg : Config} {s : State} (h : Reachable cfg s) :
    SysInv cfg s := by
  induction h with
  | init => exact sysInv_init cfg
  | step _ hs ih => exact sysInv_step ih hs

theorem specCeilConsumerMin_is_ceil (n : Nat) :
    specCeilConsumerMin n =
      (if n * 11 % 10 = 0 then n * 11 / 10 else n * 11 / 10 + 1) := by
  rw [specCeilConsumerMin]
  split <;> omega

theorem stepped_produced {cfg : Config} {s : State} {pid : Nat} {s' : State}
    (hs : Stepped cfg s (Label.produced pid) s') :
    s.buffer.length < cfg.bufferCapacity ∧
    s'.buffer = s.buffer ++ [⟨pid, s.current_timestep + 1⟩] ∧
    s'.current_timestep = s.current_timestep + 1 ∧
    s'.filled_slots = s.filled_slots + 1 ∧
    s'.stats.total_produced = s.stats.total_produced + 1 ∧
    s'.stats.total_consumed = s.stats.total_consumed ∧
    s'.stats.buffer_snapshots =
      (if (s.current_timestep + 1) % snapshotInterval cfg = 0 then
        s.stats.buffer_snapshots ++ [s.buffer.length + 1]
      else s.stats.buffer_snapshots) ∧
    s'.producedHistory = s.producedHistory ++ [⟨pid, s.current_timestep + 1⟩] ∧
    s'.consumedHistory = s.consumedHistory := by
  simp only [Stepped, applyLabel] at hs
  split at hs
  case isTrue hcond =>
    cases hs
    exact ⟨hcond.2, rfl, rfl, rfl, rfl, rfl, rfl, rfl, rfl⟩
  case isFalse => cases hs

theorem stepped_rejectedFull {cfg : Config} {s : State} {pid : Nat} {s' : State}
    (hs : Stepped cfg s (Label.rejectedFull pid) s') :
    cfg.bufferCapacity ≤ s.buffer.length ∧
    s'.buffer = s.buffer ∧
    s'.filled_slots = s.filled_slots + 1 ∧
    s'.stats.producer_waits = s.stats.producer_waits + 1 ∧
    s'.stats.total_produced = s.stats.total_produced ∧
    s'.stats.total_consumed = s.stats.total_consumed ∧
    s'.stats.buffer_snapshots = s.stats.buffer_snapshots ∧
    s'.current_timestep = s.current_timestep ∧
    s'.producedHistory = s.producedHistory := by
  simp only [Stepped, applyLabel] at hs
  split at hs
  case isTrue hcond =>
    cases hs
    exact ⟨hcond.2, rfl, rfl, rfl, rfl, rfl, rfl, rfl, rfl⟩
  case isFalse => cases hs

theorem stepped_consumed {cfg : Config} {s : State} {cid : Nat} {s' : State}
    (hs : Stepped cfg s (Label.consumed cid) s') :
    s.buffer ≠ [] ∧
    s'.buffer = s.buffer.drop 1 ∧
    s'.empty_slots = s.empty_slots + 1 ∧
    s'.stats.total_consumed = s.stats.total_consumed + 1 ∧
    s'.stats.total_produced = s.stats.total_produced ∧
    s'.current_timestep = s.current_timestep ∧
    s'.consumedHistory = s.consumedHistory ++ s.buffer.take 1 := by
  simp only [Stepped, applyLabel] at hs
  split at hs
  case isTrue =>
    cases hbuf : s.buffer with
    | nil => rw [hbuf] at hs; cases hs
    | cons p rest =>
      rw [hbuf] at hs
      cases hs
      refine ⟨by simp [hbuf], ?_, rfl, rfl, rfl, rfl, ?_⟩ <;> simp [hbuf]
  case isFalse => cases hs

theorem stepped_consumedEmpty {cfg : Config} {s : State} {cid : Nat} {s' : State}
    (hs : Stepped cfg s (Label.consumedEmpty cid) s') :
    s.buffer = [] ∧
    s'.buffer = s.buffer ∧
    s'.empty_slots = s.empty_slots + 1 ∧
    s'.stats.consumer_waits = s.stats.consumer_waits + 1 ∧
    s'.stats.total_consumed = s.stats.total_consumed ∧
    s'.consumedHistory = s.consumedHistory := by
  simp only [Stepped, applyLabel] at hs
  split at hs
  case isTrue hcond =>
    cases hs
    exact ⟨hcond.2, rfl, rfl, rfl, rfl, rfl⟩
  case isFalse => cases hs

/-- Any step that is not an accepted production leaves the timestep counter,
the produced total, the snapshot list and the produced history unchanged. -/
theorem stepped_no_production {cfg : Config} {s : State} {l : Label} {s' : State}
    (hs : Stepped cfg s l s') (hnp : ∀ pid, l ≠ Label.produced pid) :
    s'.current_timestep = s.current_timestep ∧
    s'.stats.total_produced = s.stats.total_produced ∧
    s'.stats.buffer_snapshots = s.stats.buffer_snapshots ∧
    s'.producedHistory = s.producedHistory := by
  cases l with
  | produced pid => exact absurd rfl (hnp pid)
  | consumed cid =>
    simp only [Stepped, applyLabel] at hs
    split at hs
    case isTrue =>
      cases hbuf : s.buffer with
      | nil => rw [hbuf] at hs; cases hs
      | cons p rest => rw [hbuf] at hs; cases hs; exact ⟨rfl, rfl, rfl, rfl⟩
    case isFalse => cases hs
  | pCheck pid =>
    simp only [Stepped, applyLabel] at hs
    split at hs
    · cases hs; exact ⟨rfl, rfl, rfl, rfl⟩
    · cases hs
  | pExit pid =>
    simp only [Stepped, applyLabel] at hs
    split at hs
    · cases hs; exact ⟨rfl, rfl, rfl, rfl⟩
    · cases hs
  | pAcquire pid =>
    simp only [Stepped, applyLabel] at hs
    split at hs
    · cases hs; exact ⟨rfl, rfl, rfl, rfl⟩
    · cases hs
  | pReleaseBack pid =>
    simp only [Stepped, applyLabel] at hs
    split at hs
    · cases hs; exact ⟨rfl, rfl, rfl, rfl⟩
    · cases hs
  | pEnter pid =>
    simp only [Stepped, applyLabel] at hs
    split at hs
    · cases hs; exact ⟨rfl, rfl, rfl, rfl⟩
    · cases hs
  | rejectedFull pid =>
    simp only [Stepped, applyLabel] at hs
    split at hs
    · cases hs; exact ⟨rfl, rfl, rfl, rfl⟩
    · cases hs
  | cCheck cid =>
    simp only [Stepped, applyLabel] at hs
    split at hs
    · cases hs; exact ⟨rfl, rfl, rfl, rfl⟩
    · cases hs
  | cExit cid =>
    simp only [Stepped, applyLabel] at hs
    split at hs
    · cases hs; exact ⟨rfl, rfl, rfl, rfl⟩
    · cases hs
  | cAcquire cid =>
    simp only [Stepped, applyLabel] at hs
    split at hs
    · cases hs; exact ⟨rfl, rfl, rfl, rfl⟩
    · cases hs
  | cReleaseBack cid =>
    simp only [Stepped, applyLabel] at hs
    split at hs
    · cases hs; exact ⟨rfl, rfl, rfl, rfl⟩
    · cases hs
  | cEnter cid =>
    simp only [Stepped, applyLabel] at hs
    split at hs
    · cases hs; exact ⟨rfl, rfl, rfl, rfl⟩
    · cases hs
  | consumedEmpty cid =>
    simp only [Stepped, applyLabel] at hs
    split at hs
    · cases hs; exact ⟨rfl, rfl, rfl, rfl⟩
    · cases hs
  | shutdown =>
    simp only [Stepped, applyLabel] at hs
    split at hs
    · cases hs; exact ⟨rfl, rfl, rfl, rfl⟩
    · cases hs

/-- Any step that is not a successful consumption leaves the consumed total
and the consumed history unchanged. -/
theorem stepped_no_consumption {cfg : Config} {s : State} {l : Label} {s' : State}
    (hs : Stepped cfg s l s') (hnc : ∀ cid, l ≠ Label.consumed cid) :
    s'.stats.total_consumed = s.stats.total_consumed ∧
    s'.consumedHistory = s.consumedHistory := by
  cases l with
  | consumed cid => exact absurd rfl (hnc cid)
  | produced pid =>
    have h := stepped_produced hs
    exact ⟨h.2.2.2.2.2.1, h.2.2.2.2.2.2.2.2⟩
  | pCheck pid =>
    simp only [Stepped, applyLabel] at hs
    split at hs
    · cases hs; exact ⟨rfl, rfl⟩
    · cases hs
  | pExit pid =>
    simp only [Stepped, applyLabel] at hs
    split at hs
    · cases hs; exact ⟨rfl, rfl⟩
    · cases hs
  | pAcquire pid =>
    simp only [Stepped, applyLabel] at hs
    split at hs
    · cases hs; exact ⟨rfl, rfl⟩
    · cases hs
  | pReleaseBack pid =>
    simp only [Stepped, applyLabel] at hs
    split at hs
    · cases hs; exact ⟨rfl, rfl⟩
    · cases hs
  | pEnter pid =>
    simp only [Stepped, applyLabel] at hs
    split at hs
    · cases hs; exact ⟨rfl, rfl⟩
    · cases hs
  | rejectedFull pid =>
    simp only [Stepped, applyLabel] at hs
    split at hs
    · cases hs; exact ⟨rfl, rfl⟩
    · cases hs
  | cCheck cid =>
    simp only [Stepped, applyLabel] at hs
    split at hs
    · cases hs; exact ⟨rfl, rfl⟩
    · cases hs
  | cExit cid =>
    simp only [Stepped, applyLabel] at hs
    split at hs
    · cases hs; exact ⟨rfl, rfl⟩
    · cases hs
  | cAcquire cid =>
    simp only [Stepped, applyLabel] at hs
    split at hs
    · cases hs; exact ⟨rfl, rfl⟩
    · cases hs
  | cReleaseBack cid =>
    simp only [Stepped, applyLabel] at hs
    split at hs
    · cases hs; exact ⟨rfl, rfl⟩
    · cases hs
  | cEnter cid =>
    simp only [Stepped, applyLabel] at hs
    split at hs
    · cases hs; exact ⟨rfl, rfl⟩
    · cases hs
  | consumedEmpty cid =>
    simp only [Stepped, applyLabel] at hs
    split at hs
    · cases hs; exact ⟨rfl, rfl⟩
    · cases hs
  | shutdown =>
    simp only [Stepped, applyLabel] at hs
    split at hs
    · cases hs; exact ⟨rfl, rfl⟩
    · cases hs

/-- The timestep counter never decreases across any single step. -/
theorem stepped_ts_mono {cfg : Config} {s : State} {l : Label} {s' : State}
    (hs : Stepped cfg s l s') : s.current_timestep ≤ s'.current_timestep := by
  by_cases hp : ∀ pid, l ≠ Label.produced pid
  · exact le_of_eq (stepped_no_production hs hp).1.symm
  · push_neg at hp
    obtain ⟨pid, hpid⟩ := hp
    subst hpid
    have h := stepped_produced hs
    omega

theorem wStep : Stepped cfgToy wState (Label.produced 0) wState' := by decide

theorem wState_reachable : Reachable cfgToy wState :=
  reachable_of_runLabels cfgToy wTrace wState (by decide)

theorem wCStep : Stepped cfgToy wCState (Label.consumed 0) wCState' := by decide

/-- C1: in every reachable state — in particular in the state observed after
`wait_completion` returns — `total_produced = total_consumed + len(buffer)`;
moreover `total_produced` changes only by the producer critical section that
appends a piece, and `total_consumed` only by the consumer critical section
that pops one, each by exactly one unit, so no unit is lost or duplicated. -/
theorem c1_conservation :
    (∀ (cfg : Config) (s : State), Reachable cfg s →
      s.stats.total_produced = s.stats.total_consumed + s.buffer.length) ∧
    (∀ (cfg : Config) (s : State) (l : Label) (s' : State), Stepped cfg s l s' →
      s'.stats.total_produced ≠ s.stats.total_produced →
      (∃ pid, l = Label.produced pid ∧
        s'.buffer = s.buffer ++ [⟨pid, s.current_timestep + 1⟩]) ∧
      s'.stats.total_produced = s.stats.total_produced + 1) ∧
    (∀ (cfg : Config) (s : State) (l : Label) (s' : State), Stepped cfg s l s' →
      s'.stats.total_consumed ≠ s.stats.total_consumed →
      (∃ cid, l = Label.consumed cid) ∧ s'.buffer = s.buffer.drop 1 ∧
      s'.stats.total_consumed = s.stats.total_consumed + 1) := by
  refine ⟨fun cfg s h => (sysInv_reachable h).conservation, ?_, ?_⟩
  · intro cfg s l s' hs hne
    by_cases hp : ∀ pid, l ≠ Label.produced pid
    · exact absurd (stepped_no_production hs hp).2.1 hne
    · push_neg at hp
      obtain ⟨pid, rfl⟩ := hp
      have h := stepped_produced hs
      exact ⟨⟨pid, rfl, h.2.1⟩, h.2.2.2.2.1⟩
  · intro cfg s l s' hs hne
    by_cases hc : ∀ cid, l ≠ Label.consumed cid
    · exact absurd (stepped_no_consumption hs hc).1 hne
    · push_neg at hc
      obtain ⟨cid, rfl⟩ := hc
      have h := stepped_consumed hs
      exact ⟨⟨cid, rfl⟩, h.2.1, h.2.2.2.1⟩

theorem c1_conservation_witness :
    wState.stats.total_produced = wState.stats.total_consumed + wState.buffer.length ∧
    ((∃ pid, Label.produced 0 = Label.produced pid ∧
        wState'.buffer = wState.buffer ++ [⟨pid, wState.current_timestep + 1⟩]) ∧
      wState'.stats.total_produced = wState.stats.total_produced + 1) ∧
    ((∃ cid, Label.consumed 0 = Label.consumed cid) ∧
      wCState'.buffer = wCState.buffer.drop 1 ∧
      wCState'.stats.total_consumed = wCState.stats.total_consumed + 1) :=
  ⟨c1_conservation.1 cfgToy wState wState_reachable,
   c1_conservation.2.1 cfgToy wState (Label.produced 0) wState' wStep (by decide),
   c1_conservation.2.2 cfgToy wCState (Label.consumed 0) wCState' wCStep (by decide)⟩

theorem wRejStep : Stepped cfgC2 c2state (Label.rejectedFull 0) c2state' := by decide

/-- C2 counterexample: when the producer critical section meets a full buffer
it takes the rejected branch (`producer_waits` is incremented, nothing is
appended) — and `filled_slots` is released all the same, because line 152
runs unconditionally after the `with self.mutex` block.  The claimed
"no release of filled_slots occurs on the rejected-full branch" is false of
the code. -/
theorem c2_release_counterexample :
    Stepped cfgC2 c2state (Label.rejectedFull 0) c2state' ∧
    c2state.buffer.length = cfgC2.bufferCapacity ∧
    c2state'.buffer = c2state.buffer ∧
    c2state'.stats.producer_waits = c2state.stats.producer_waits + 1 ∧
    c2state'.filled_slots = c2state.filled_slots + 1 := by
  decide

/-- C2 as amended: each completed producer critical section releases
`filled_slots` exactly once on the accepted *and* on the rejected branch (the
release after the critical section is unconditional), and symmetrically each
completed consumer critical section releases `empty_slots` exactly once on
the hit *and* on the empty-buffer branch. -/
theorem c2_unconditional_release :
    (∀ (cfg : Config) (s : State) (pid : Nat) (s' : State),
      Stepped cfg s (Label.produced pid) s' ∨ Stepped cfg s (Label.rejectedFull pid) s' →
      s'.filled_slots = s.filled_slots + 1) ∧
    (∀ (cfg : Config) (s : State) (cid : Nat) (s' : State),
      Stepped cfg s (Label.consumed cid) s' ∨ Stepped cfg s (Label.consumedEmpty cid) s' →
      s'.empty_slots = s.empty_slots + 1) := by
  constructor
  · rintro cfg s pid s' (hs | hs)
    · exact (stepped_produced hs).2.2.2.1
    · exact (stepped_rejectedFull hs).2.2.1
  · rintro cfg s cid s' (hs | hs)
    · exact (stepped_consumed hs).2.2.1
    · exact (stepped_consumedEmpty hs).2.2.1

theorem c2_unconditional_release_witness :
    wState'.filled_slots = wState.filled_slots + 1 ∧
    c2state'.filled_slots = c2state.filled_slots + 1 ∧
    wCState'.empty_slots = wCState.empty_slots + 1 :=
  ⟨c2_unconditional_release.1 cfgToy wState 0 wState' (Or.inl wStep),
   c2_unconditional_release.1 cfgC2 c2state 0 c2state' (Or.inr wRejStep),
   c2_unconditional_release.2 cfgToy wCState 0 wCState' (Or.inl wCStep)⟩

/-- C3 counterexample: with 205 producers the code's consumer minimum is
`int(205 * 1.1) = 225`, so construction with 225 consumers succeeds, while
`ceil(1.1 × 205) = 226` — the claimed iff with the ceiling fails at
`num_consumers = 225`. -/
theorem c3_ceil_counterexample :
    validateParams 1000 205 225 1000000 =
      Except.ok { bufferCapacity := 1000, numProducers := 205, numConsumers := 225,
                  totalTimesteps := 1000000 } ∧
    225 < specCeilConsumerMin 205 ∧
    specCeilConsumerMin 205 = 226 := by
  decide

/-- C3 as amended: with the other three parameters valid, construction with
`validate=True` succeeds iff `num_consumers ≥ int(num_producers * 1.1)`,
Python's truncation of the product (embedded as `num_producers * 11 / 10`),
not the ceiling; any smaller `num_consumers` raises the `ValueError` naming
the consumer minimum. -/
theorem c3_consumer_minimum :
    ∀ cap p c t : Nat, 1000 ≤ cap → 200 ≤ p → 1000000 ≤ t →
      ((validateParams cap p c t =
        Except.ok { bufferCapacity := cap, numProducers := p, numConsumers := c,
                    totalTimesteps := t }) ↔ min_consumers p ≤ c) ∧
      (c < min_consumers p →
        validateParams cap p c t =
          Except.error ("Numero de consumidores deve ser no minimo "
            ++ toString (min_consumers p))) := by
  intro cap p c t hcap hp ht
  unfold validateParams
  rw [if_neg (by omega), if_neg (by omega)]
  constructor
  · split
    case isTrue h => simp; omega
    case isFalse h =>
      rw [if_neg (by omega)]
      simp
      omega
  · intro hlt
    rw [if_pos hlt]

theorem c3_consumer_minimum_witness :
    (validateParams 1000 200 220 1000000 =
      Except.ok { bufferCapacity := 1000, numProducers := 200, numConsumers := 220,
                  totalTimesteps := 1000000 }) ∧
    validateParams 1000 200 219 1000000 =
      Except.error ("Numero de consumidores deve ser no minimo "
        ++ toString (min_consumers 200)) :=
  ⟨(c3_consumer_minimum 1000 200 220 1000000 (by decide) (by decide) (by decide)).1.mpr
      (by decide),
   (c3_consumer_minimum 1000 200 219 1000000 (by decide) (by decide) (by decide)).2
      (by decide)⟩

/-- C4 counterexample: at the moment `producer_task` increments
`total_produced` (event index 6 of the accepted-branch body, line 141), the
worker holds *two* locks — `stats_lock` nested inside the buffer mutex — so
the claims "at most one of the three locks is held" and "statistics updates
never occur while the buffer mutex is held" are both false of the code. -/
theorem c4_lock_counterexample :
    producerAcceptedBody[6]? = some BodyEvent.statsProducedUpdate ∧
    heldAt producerAcceptedBody 6 = [LockName.statsLock, LockName.bufferMutex] ∧
    2 ≤ (heldAt producerAcceptedBody 6).length := by
  decide

/-- C4 as amended: a worker can hold two locks at once, but only in the fixed
nesting with the buffer mutex outermost: in every execution position of the
four critical-section bodies at most two locks are held, `stats_lock` and
`timestep_lock` are only ever held while the buffer mutex is held, those two
are never held together (so the lock order is consistent and lock-ordering
deadlocks remain impossible), and every statistics update runs while the
buffer mutex is held. -/
theorem c4_lock_nesting :
    (lockNestingOK producerAcceptedBody && lockNestingOK producerRejectedBody &&
      lockNestingOK consumerHitBody && lockNestingOK consumerMissBody) = true ∧
    (statsUpdatesUnderMutex producerAcceptedBody &&
      statsUpdatesUnderMutex producerRejectedBody &&
      statsUpdatesUnderMutex consumerHitBody &&
      statsUpdatesUnderMutex consumerMissBody) = true := by
  decide

theorem c5final_reachable : Reachable cfgC5 c5final :=
  reachable_of_runLabels cfgC5 c5trace c5final (by decide)

/-- C5 counterexample: a completed run (both producers done, `running`
cleared by `wait_completion`) in which `current_timestep = 2` while
`total_timesteps = 1`: the counter is *not* bounded above by
`total_timesteps`, and after `wait_completion` it is strictly greater, not
equal. -/
theorem c5_bound_counterexample :
    Reachable cfgC5 c5final ∧
    c5final.running = false ∧
    c5final.producers = [WPhase.done, WPhase.done] ∧
    cfgC5.totalTimesteps = 1 ∧
    c5final.current_timestep = 2 := by
  refine ⟨c5final_reachable, ?_, ?_, ?_, ?_⟩ <;> decide

/-- C5 as amended: `current_timestep` starts at 0 and is monotonically
non-decreasing, but concurrent producers that already passed their loop
checks can push it past `total_timesteps`; after `wait_completion` returns
(`running = false`) it satisfies `current_timestep ≥ total_timesteps`, not
necessarily equality. -/
theorem c5_timestep_monotone :
    (∀ cfg : Config, (initState cfg).current_timestep = 0) ∧
    (∀ (cfg : Config) (s : State) (l : Label) (s' : State),
      Stepped cfg s l s' → s.current_timestep ≤ s'.current_timestep) ∧
    (∀ (cfg : Config) (s : State), Reachable cfg s → s.running = false →
      cfg.totalTimesteps ≤ s.current_timestep) :=
  ⟨fun _ => rfl,
   fun _ _ _ _ hs => stepped_ts_mono hs,
   fun _ _ h hr => (sysInv_reachable h).shutdown_ts hr⟩

theorem c5_timestep_monotone_witness :
    (initState cfgToy).current_timestep = 0 ∧
    wState.current_timestep ≤ wState'.current_timestep ∧
    cfgC5.totalTimesteps ≤ c5final.current_timestep :=
  ⟨c5_timestep_monotone.1 cfgToy,
   c5_timestep_monotone.2.1 cfgToy wState (Label.produced 0) wState' wStep,
   c5_timestep_monotone.2.2 cfgC5 c5final c5final_reachable (by decide)⟩

/-- C6: in every reachable state the buffer length is between 0 and
`buffer_capacity` and every recorded snapshot value is between 0 and
`buffer_capacity` (lower bounds are inherent to natural numbers); a produce
attempt that finds the buffer full takes the rejected branch, which leaves
the buffer — and everything except `producer_waits` and the unconditional
semaphore signal — unchanged. -/
theorem c6_capacity_invariant :
    (∀ (cfg : Config) (s : State), Reachable cfg s →
      s.buffer.length ≤ cfg.bufferCapacity ∧
      ∀ v ∈ s.stats.buffer_snapshots, v ≤ cfg.bufferCapacity) ∧
    (∀ (cfg : Config) (s : State) (pid : Nat) (s' : State),
      Stepped cfg s (Label.rejectedFull pid) s' →
      cfg.bufferCapacity ≤ s.buffer.length ∧
      s'.buffer = s.buffer ∧
      s'.stats.total_produced = s.stats.total_produced ∧
      s'.producedHistory = s.producedHistory) := by
  constructor
  · intro cfg s h
    exact ⟨(sysInv_reachable h).capacity, (sysInv_reachable h).snapshots_le⟩
  · intro cfg s pid s' hs
    have h := stepped_rejectedFull hs
    exact ⟨h.1, h.2.1, h.2.2.2.2.1, h.2.2.2.2.2.2.2.2⟩

theorem c6_capacity_invariant_witness :
    (wState'.buffer.length ≤ cfgToy.bufferCapacity ∧
      ∀ v ∈ wState'.stats.buffer_snapshots, v ≤ cfgToy.bufferCapacity) ∧
    (cfgC2.bufferCapacity ≤ c2state.buffer.length ∧
      c2state'.buffer = c2state.buffer ∧
      c2state'.stats.total_produced = c2state.stats.total_produced ∧
      c2state'.producedHistory = c2state.producedHistory) :=
  ⟨c6_capacity_invariant.1 cfgToy wState' (Reachable.step wState_reachable wStep),
   c6_capacity_invariant.2 cfgC2 c2state 0 c2state' wRejStep⟩

/-- C7: FIFO ordering.  In every reachable state the ghost production history
equals the ghost consumption history followed by the current buffer: the
buffer preserves insertion order and what has been consumed is exactly the
oldest prefix of what was produced.  Moreover every accepted production
appends at the tail, and every successful consumption removes the head of
the buffer — the oldest unit currently in it — and hands exactly that unit
to the consumer. -/
theorem c7_fifo :
    (∀ (cfg : Config) (s : State), Reachable cfg s →
      s.producedHistory = s.consumedHistory ++ s.buffer) ∧
    (∀ (cfg : Config) (s : State) (pid : Nat) (s' : State),
      Stepped cfg s (Label.produced pid) s' →
      s'.buffer = s.buffer ++ [⟨pid, s.current_timestep + 1⟩]) ∧
    (∀ (cfg : Config) (s : State) (cid : Nat) (s' : State),
      Stepped cfg s (Label.consumed cid) s' →
      s.buffer ≠ [] ∧ s'.buffer = s.buffer.drop 1 ∧
      s'.consumedHistory = s.consumedHistory ++ s.buffer.take 1) := by
  refine ⟨fun cfg s h => (sysInv_reachable h).history, ?_, ?_⟩
  · intro cfg s pid s' hs
    exact (stepped_produced hs).2.1
  · intro cfg s cid s' hs
    have h := stepped_consumed hs
    exact ⟨h.1, h.2.1, h.2.2.2.2.2.2⟩

theorem c7_fifo_witness :
    wCState.producedHistory = wCState.consumedHistory ++ wCState.buffer ∧
    wState'.buffer = wState.buffer ++ [⟨0, wState.current_timestep + 1⟩] ∧
    (wCState.buffer ≠ [] ∧ wCState'.buffer = wCState.buffer.drop 1 ∧
      wCState'.consumedHistory = wCState.consumedHistory ++ wCState.buffer.take 1) :=
  ⟨c7_fifo.1 cfgToy wCState (reachable_of_runLabels cfgToy wCTrace wCState (by decide)),
   c7_fifo.2.1 cfgToy wState 0 wState' wStep,
   c7_fifo.2.2 cfgToy wCState 0 wCState' wCStep⟩

/-- C8: with `validate=True` construction succeeds — returning the stored
parameters with no run state otherwise constructed — iff all four minimums
hold; violating any of them yields the `ValueError` for the first violated
constraint, whose message names it.  In particular the concrete scenario
`(1, 1, 1, 1000000)` raises the buffer-capacity error. -/
theorem c8_validation :
    (∀ cap p c t : Nat,
      (validateParams cap p c t =
        Except.ok { bufferCapacity := cap, numProducers := p, numConsumers := c,
                    totalTimesteps := t }) ↔
      (1000 ≤ cap ∧ 200 ≤ p ∧ min_consumers p ≤ c ∧ 1000000 ≤ t)) ∧
    validateParams 1 1 1 1000000 =
      Except.error "Capacidade do buffer deve ser no minimo 1000" := by
  constructor
  · intro cap p c t
    unfold validateParams
    split
    case isTrue h => simp; omega
    case isFalse h1 =>
      split
      case isTrue h => simp; omega
      case isFalse h2 =>
        split
        case isTrue h => simp; omega
        case isFalse h3 =>
          split
          case isTrue h => simp; omega
          case isFalse h4 => simp; omega
  · decide

theorem c9final_reachable : Reachable cfgC9 c9final :=
  reachable_of_runLabels cfgC9 c9trace c9final (by decide)

theorem c9_cadence_counterexample :
    Reachable cfgC9 c9final ∧
    c9final.running = false ∧
    c9final.producers = [WPhase.done, WPhase.done, WPhase.done, WPhase.done] ∧
    c9final.consumers = [WPhase.done] ∧
    cfgC9.totalTimesteps / snapshotInterval cfgC9 = 2 ∧
    c9final.stats.buffer_snapshots.length = 4 ∧
    cfgC9.totalTimesteps / snapshotInterval cfgC9 + 1 <
      c9final.stats.buffer_snapshots.length := by
  refine ⟨c9final_reachable, ?_, ?_, ?_, ?_, ?_, ?_⟩ <;> decide

/-- C9 as amended: a snapshot is appended exactly when an accepted production
is tagged with a timestep divisible by `snapshot_interval`, so in every
reachable state the number of snapshots is `current_timestep //
snapshot_interval`; for a completed run this is at least `total_timesteps //
snapshot_interval` but can exceed it by the producers' overshoot (beyond the
claimed ±1).  Every snapshot value lies in `[0, buffer_capacity]`. -/
theorem c9_snapshot_cadence :
    (∀ (cfg : Config) (s : State), Reachable cfg s →
      s.stats.buffer_snapshots.length = s.current_timestep / snapshotInterval cfg ∧
      ∀ v ∈ s.stats.buffer_snapshots, v ≤ cfg.bufferCapacity) ∧
    (∀ (cfg : Config) (s : State) (l : Label) (s' : State), Stepped cfg s l s' →
      s'.stats.buffer_snapshots ≠ s.stats.buffer_snapshots →
      (∃ pid, l = Label.produced pid) ∧
      (s.current_timestep + 1) % snapshotInterval cfg = 0 ∧
      s'.stats.buffer_snapshots = s.stats.buffer_snapshots ++ [s.buffer.length + 1]) ∧
    (∀ (cfg : Config) (s : State), Reachable cfg s → s.running = false →
      cfg.totalTimesteps / snapshotInterval cfg ≤ s.stats.buffer_snapshots.length) := by
  refine ⟨?_, ?_, ?_⟩
  · intro cfg s h
    exact ⟨(sysInv_reachable h).snapshots_len, (sysInv_reachable h).snapshots_le⟩
  · intro cfg s l s' hs hne
    by_cases hp : ∀ pid, l ≠ Label.produced pid
    · exact absurd (stepped_no_production hs hp).2.2.1 hne
    · push_neg at hp
      obtain ⟨pid, rfl⟩ := hp
      have h := (stepped_produced hs).2.2.2.2.2.2.1
      by_cases hdvd : (s.current_timestep + 1) % snapshotInterval cfg = 0
      · rw [if_pos hdvd] at h
        exact ⟨⟨pid, rfl⟩, hdvd, h⟩
      · rw [if_neg hdvd] at h
        exact absurd h hne
  · intro cfg s h hr
    have hinv := sysInv_reachable h
    rw [hinv.snapshots_len]
    exact Nat.div_le_div_right (hinv.shutdown_ts hr)

theorem c9_snapshot_cadence_witness :
    (c9final.stats.buffer_snapshots.length =
        c9final.current_timestep / snapshotInterval cfgC9 ∧
      ∀ v ∈ c9final.stats.buffer_snapshots, v ≤ cfgC9.bufferCapacity) ∧
    ((∃ pid, Label.produced 0 = Label.produced pid) ∧
      (wState.current_timestep + 1) % snapshotInterval cfgToy = 0 ∧
      wState'.stats.buffer_snapshots =
        wState.stats.buffer_snapshots ++ [wState.buffer.length + 1]) ∧
    cfgC9.totalTimesteps / snapshotInterval cfgC9 ≤
      c9final.stats.buffer_snapshots.length :=
  ⟨c9_snapshot_cadence.1 cfgC9 c9final c9final_reachable,
   c9_snapshot_cadence.2.1 cfgToy wState (Label.produced 0) wState' wStep (by decide),
   c9_snapshot_cadence.2.2 cfgC9 c9final c9final_reachable (by decide)⟩

/-- C10: the timestep tag of a produced unit is the value of the counter
after its increment (`increment_timestep` increments then returns, line
108-110), and tagging happens only on the accepted-production branch, where
it advances the counter by exactly one.  Consequently in every reachable
state the tags of the produced units, in production order, are exactly the
consecutive integers `1 .. total_produced` — the first unit is tagged 1,
never 0, and no tag repeats. -/
theorem c10_timestep_tags :
    (∀ (cfg : Config) (s : State), Reachable cfg s →
      s.producedHistory.map Piece.timestep = List.range' 1 s.stats.total_produced ∧
      s.stats.total_produced = s.current_timestep) ∧
    (∀ (cfg : Config) (s : State) (l : Label) (s' : State), Stepped cfg s l s' →
      s'.current_timestep ≠ s.current_timestep →
      ∃ pid, l = Label.produced pid ∧
        s'.current_timestep = s.current_timestep + 1 ∧
        s'.producedHistory = s.producedHistory ++ [⟨pid, s.current_timestep + 1⟩]) := by
  constructor
  · intro cfg s h
    exact ⟨(sysInv_reachable h).tags, (sysInv_reachable h).produced_eq_ts⟩
  · intro cfg s l s' hs hne
    by_cases hp : ∀ pid, l ≠ Label.produced pid
    · exact absurd (stepped_no_production hs hp).1 hne
    · push_neg at hp
      obtain ⟨pid, rfl⟩ := hp
      have h := stepped_produced hs
      exact ⟨pid, rfl, h.2.2.1, h.2.2.2.2.2.2.2.1⟩

theorem c10_timestep_tags_witness :
    (wState'.producedHistory.map Piece.timestep =
        List.range' 1 wState'.stats.total_produced ∧
      wState'.stats.total_produced = wState'.current_timestep) ∧
    (∃ pid, Label.produced 0 = Label.produced pid ∧
      wState'.current_timestep = wState.current_timestep + 1 ∧
      wState'.producedHistory = wState.producedHistory ++ [⟨pid, wState.current_timestep + 1⟩]) :=
  ⟨c10_timestep_tags.1 cfgToy wState' (Reachable.step wState_reachable wStep),
   c10_timestep_tags.2 cfgToy wState (Label.produced 0) wState' wStep (by decide)⟩
